import Mathlib

/-!
Verification of the message broker of `src/server.js` (the agent-chatroom
WebSocket server) against its natural-language specification.

The broker is shallowly embedded: the per-connection record and the registry
(`clients`, a JS `Map` from websocket to record) become explicit data, and
each event handler (`message`, `close`, `pong`, the heartbeat tick and the
periodic snapshot tick) becomes a pure function from broker state and event
data to a new state plus a list of emitted transport actions.  Connections
are identified by a natural-number id; their transport `readyState` (the JS
`ws.readyState`, where 1 means OPEN) is part of the state.  All `Date.now()`
calls inside one handler invocation are modelled as the single receipt time
`now` of the event being handled, matching the single-threaded run-to-
completion model of the server.
-/

namespace Chatroom

/-- Per-connection record stored in the broker registry (`server.js` line 16:
`ws -> { name, type, alive, joinedAt, status, task }`, created at lines 71 and
87-94).  The JS `leaving` property starts `undefined`, modelled as `false`;
`task: null` is modelled as `none`. -/
structure ClientInfo where
  name : String
  type : String
  alive : Bool
  joinedAt : Nat
  status : String
  task : Option String
  leaving : Bool
deriving Repr, DecidableEq

/-- Broker state: `conns` lists the transport connections the server has seen
with their current `readyState` (1 = OPEN), and `clients` is the registry, an
insertion-ordered association list from connection id to record (the JS
`Map`). -/
structure ServerState where
  conns : List (Nat × Nat)
  clients : List (Nat × ClientInfo)
deriving Repr, DecidableEq

/-- readyState of a connection (3 = CLOSED when unknown). -/
def rsOf (st : ServerState) (cid : Nat) : Nat :=
  ((st.conns.find? (fun p => p.1 = cid)).map Prod.snd).getD 3

/-- Client-to-broker message after JSON parsing, a tagged union over the
`msg.type` values `server.js` dispatches on.  Optional JS fields are
`Option`; a parsed object whose `type` matches none of the handled kinds is
`unknownKind` (it falls through every `if` and has no effect). -/
inductive ClientMsg where
  | register (name : String) (agentType : Option String)
  | status_update (status : Option String) (task : Option String)
  | chat (text : String) (fromField : Option String)
  | discovery (text : String) (category : Option String) (fromField : Option String)
  | leaving
  | who
  | unknownKind
deriving Repr, DecidableEq

/-- Entry of a `participants_update` payload (`server.js` lines 26-32). -/
structure Participant where
  name : String
  type : String
  status : String
  task : Option String
  joinedAt : Nat
deriving Repr, DecidableEq

/-- Entry of a `who_response` payload (`server.js` line 162). -/
structure WhoEntry where
  name : String
  type : String
  joinedAt : Nat
deriving Repr, DecidableEq

/-- Broker-to-client message. -/
inductive ServerMsg where
  | system (text : String) (timestamp : Nat)
  | chat (fromName : String) (agentType : String) (text : String) (timestamp : Nat)
  | discovery (fromName : String) (agentType : String) (category : Option String)
      (text : String) (timestamp : Nat)
  | participants_update (participants : List Participant) (timestamp : Nat)
  | who_response (clients : List WhoEntry) (timestamp : Nat)
deriving Repr, DecidableEq

/-- The server-assigned timestamp carried by a broker-to-client message. -/
def tsOf : ServerMsg → Nat
  | ServerMsg.system _ t => t
  | ServerMsg.chat _ _ _ t => t
  | ServerMsg.discovery _ _ _ _ t => t
  | ServerMsg.participants_update _ t => t
  | ServerMsg.who_response _ t => t

/-- Transport action emitted by a handler: `send` a message to a connection,
low-level `ping`, or forcible `terminate` (the JS `ws.terminate()`). -/
inductive Output where
  | send (target : Nat) (msg : ServerMsg)
  | ping (target : Nat)
  | terminate (target : Nat)
deriving Repr, DecidableEq

/-- Connection an output is directed at. -/
def targetOf : Output → Nat
  | Output.send t _ => t
  | Output.ping t => t
  | Output.terminate t => t

/-- JS `a || b` for an optional string field: `undefined` and the empty
string are falsy, so both fall back to `b`. -/
def strOr (a : Option String) (b : String) : String :=
  match a with
  | none => b
  | some s => if s = "" then b else s

/-- JS `a || null` for an optional string field (`msg.task || null`). -/
def strOrNull (a : Option String) : Option String :=
  match a with
  | none => none
  | some s => if s = "" then none else some s

/-- Registry lookup, JS `clients.get(ws)` / `clients.has(ws)`. -/
def lookupClient (l : List (Nat × ClientInfo)) (cid : Nat) : Option ClientInfo :=
  (l.find? (fun p => p.1 = cid)).map Prod.snd

/-- JS `Map.set`: replace in place when the key exists (keeping its insertion
position), append otherwise. -/
def setClient (l : List (Nat × ClientInfo)) (cid : Nat) (info : ClientInfo) :
    List (Nat × ClientInfo) :=
  match l with
  | [] => [(cid, info)]
  | (k, v) :: rest =>
      if k = cid then (cid, info) :: rest else (k, v) :: setClient rest cid info

/-- JS `Map.delete`. -/
def deleteClient (l : List (Nat × ClientInfo)) (cid : Nat) : List (Nat × ClientInfo) :=
  l.filter (fun p => ¬ p.1 = cid)

/-- In-place mutation of the record under a key, JS
`clients.get(ws).field = v`. -/
def updateClient (l : List (Nat × ClientInfo)) (cid : Nat) (f : ClientInfo → ClientInfo) :
    List (Nat × ClientInfo) :=
  l.map (fun p => if p.1 = cid then (p.1, f p.2) else p)

/-- `server.js` lines 213-220: serialize once and send to every key of the
registry whose transport `readyState` is OPEN (`=== 1`); any other key is
skipped, with no retry and no effect on the remaining sends. -/
def broadcast (st : ServerState) (m : ServerMsg) : List Output :=
  st.clients.filterMap
    (fun p => if rsOf st p.1 = 1 then some (Output.send p.1 m) else none)

/-- `server.js` lines 23-33: the participants snapshot derived from the
registry.  `info.type === 'user'` reports status `'observer'`; otherwise
`info.status || 'idle'` (JS falsy: the empty string also falls back) and
`info.task || null`. -/
def participantsOf (st : ServerState) : List Participant :=
  st.clients.map (fun p =>
    { name := p.2.name
      type := p.2.type
      status := if p.2.type = "user" then "observer"
                else if p.2.status = "" then "idle" else p.2.status
      task := strOrNull p.2.task
      joinedAt := p.2.joinedAt })

/-- `server.js` lines 23-39: broadcast the snapshot with a fresh timestamp. -/
def broadcastParticipants (st : ServerState) (now : Nat) : List Output :=
  broadcast st (ServerMsg.participants_update (participantsOf st) now)

/-- The per-connection closure variable `clientInfo` (`server.js` line 71).
After a `register` it is the very object stored in the registry, so while the
connection is registered it equals the registry record; before registration it
is the placeholder `{ name: 'unknown', type: 'unknown', ... }`.  The
placeholder's `joinedAt` (the connection-open time) is never read by any
handler path, so its modelled value 0 is unobservable. -/
def localInfo (st : ServerState) (cid : Nat) : ClientInfo :=
  match lookupClient st.clients cid with
  | some info => info
  | none =>
      { name := "unknown", type := "unknown", alive := true, joinedAt := 0,
        status := "idle", task := none, leaving := false }

/-- `server.js` lines 80-174: the message handler.  A payload the `try` block
fails to parse (the `catch` at line 171) is `none`: it is logged and dropped
with no state change and no output. -/
def onMessage (st : ServerState) (cid : Nat) (data : Option ClientMsg) (now : Nat) :
    ServerState × List Output :=
  match data with
  | none => (st, [])
  | some (ClientMsg.register name agentType) =>
      let clientInfo : ClientInfo :=
        { name := name, type := strOr agentType "agent", alive := true,
          joinedAt := now, status := "idle", task := none, leaving := false }
      let st1 : ServerState := { st with clients := setClient st.clients cid clientInfo }
      (st1, broadcast st1 (ServerMsg.system (name ++ " joined") now)
            ++ broadcastParticipants st1 now)
  | some (ClientMsg.status_update status task) =>
      match lookupClient st.clients cid with
      | some _ =>
          let clients1 := updateClient st.clients cid
            (fun info => { info with status := strOr status "idle",
                                     task := strOrNull task })
          let st1 : ServerState := { st with clients := clients1 }
          (st1, broadcastParticipants st1 now)
      | none => (st, [])
  | some (ClientMsg.chat text fromField) =>
      (st, broadcast st (ServerMsg.chat (strOr fromField (localInfo st cid).name)
            (localInfo st cid).type text now))
  | some (ClientMsg.discovery text category fromField) =>
      let st1 : ServerState :=
        if category = some "leaving" ∧ (lookupClient st.clients cid).isSome then
          let clients1 := updateClient st.clients cid (fun info => { info with leaving := true })
          { st with clients := clients1 }
        else st
      (st1, broadcast st1 (ServerMsg.discovery (strOr fromField (localInfo st1 cid).name)
            (localInfo st1 cid).type category text now))
  | some ClientMsg.leaving =>
      match lookupClient st.clients cid with
      | some _ =>
          let clients1 := updateClient st.clients cid (fun info => { info with leaving := true })
          ({ st with clients := clients1 }, [])
      | none => (st, [])
  | some ClientMsg.who =>
      (st, [Output.send cid (ServerMsg.who_response
        (st.clients.map (fun p =>
          { name := p.2.name, type := p.2.type, joinedAt := p.2.joinedAt })) now)])
  | some ClientMsg.unknownKind => (st, [])

/-- `server.js` line 184 onward: the exitReason precedence computed at close
time from the close code and the record. -/
def exitReasonOf (code : Nat) (info : ClientInfo) : String :=
  if code = 1000 ∨ info.leaving then "left normally"
  else if code = 1001 then "going away"
  else if code = 1006 then "connection lost"
  else if !info.alive then "heartbeat timeout"
  else "disconnected"

/-- `server.js` lines 176-203: the close handler.  Only acts when the
connection is registered; computes the exitReason and the membership duration
(`Math.round((now - joinedAt) / 1000)`, in Nat arithmetic `(d + 500) / 1000`),
removes the record, then broadcasts the system notice and a fresh snapshot,
both computed from the registry with the record already removed. -/
def onClose (st : ServerState) (cid : Nat) (code : Nat) (now : Nat) :
    ServerState × List Output :=
  match lookupClient st.clients cid with
  | none => (st, [])
  | some info =>
      let duration : Nat := (now - info.joinedAt + 500) / 1000
      let st1 : ServerState := { st with clients := deleteClient st.clients cid }
      (st1,
        broadcast st1 (ServerMsg.system
          (info.name ++ " " ++ exitReasonOf code info
            ++ " (was here " ++ toString duration ++ "s)") now)
        ++ broadcastParticipants st1 now)

/-- `server.js` lines 74-78: a low-level pong flips the liveness flag back to
true, only when the connection is registered. -/
def onPong (st : ServerState) (cid : Nat) : ServerState :=
  let clients1 := updateClient st.clients cid (fun info => { info with alive := true })
  { st with clients := clients1 }

/-- `server.js` lines 42-55: one heartbeat tick.  Every registry entry whose
liveness flag is false is forcibly terminated; every live entry is pinged and
its flag is flipped to false, to be restored by the peer's pong.  This is the
only handler that emits `Output.terminate`. -/
def heartbeatTick (st : ServerState) : ServerState × List Output :=
  let clients1 := st.clients.map
    (fun p => if p.2.alive then (p.1, { p.2 with alive := false }) else p)
  ({ st with clients := clients1 },
   st.clients.map (fun p => if p.2.alive then Output.ping p.1 else Output.terminate p.1))

/-- `server.js` lines 58-62: the periodic snapshot broadcast, sent only when
the registry is non-empty. -/
def snapshotTick (st : ServerState) (now : Nat) : List Output :=
  if st.clients.isEmpty then [] else broadcastParticipants st now

/-- One broker event: everything the single-threaded event loop can hand the
broker.  `message` carries the parse result (`none` = unparseable frame). -/
inductive Event where
  | message (cid : Nat) (data : Option ClientMsg)
  | close (cid : Nat) (code : Nat)
  | pong (cid : Nat)
  | heartbeat
  | snapshot
deriving Repr, DecidableEq

/-- The broker's event-loop step: dispatch one event, received at time `now`,
to its handler. -/
def step (st : ServerState) (e : Event) (now : Nat) : ServerState × List Output :=
  match e with
  | Event.message cid data => onMessage st cid data now
  | Event.close cid code => onClose st cid code now
  | Event.pong cid => (onPong st cid, [])
  | Event.heartbeat => heartbeatTick st
  | Event.snapshot => (st, snapshotTick st now)

/-! Helper lemmas about the registry operations and the broadcast primitive. -/

theorem find?_eq_of_lookupClient {l : List (Nat × ClientInfo)} {cid : Nat} {info : ClientInfo}
    (h : lookupClient l cid = some info) :
    l.find? (fun p => p.1 = cid) = some (cid, info) := by
  unfold lookupClient at h
  cases hf : l.find? (fun p => p.1 = cid) with
  | none => simp [hf] at h
  | some p =>
      have hp : p.1 = cid := by simpa using List.find?_some hf
      rw [hf] at h
      simp at h
      cases p
      simp_all

theorem lookupClient_setClient_self (l : List (Nat × ClientInfo)) (cid : Nat)
    (info : ClientInfo) : lookupClient (setClient l cid info) cid = some info := by
  induction l with
  | nil => simp [setClient, lookupClient]
  | cons p rest ih =>
      obtain ⟨k, v⟩ := p
      by_cases h : k = cid
      · simp [setClient, h, lookupClient]
      · simpa [setClient, h, lookupClient] using ih

theorem mem_setClient_self (l : List (Nat × ClientInfo)) (cid : Nat) (info : ClientInfo) :
    (cid, info) ∈ setClient l cid info :=
  List.mem_of_find?_eq_some (find?_eq_of_lookupClient (lookupClient_setClient_self l cid info))

theorem lookupClient_deleteClient_self (l : List (Nat × ClientInfo)) (cid : Nat) :
    lookupClient (deleteClient l cid) cid = none := by
  induction l with
  | nil => simp [deleteClient, lookupClient]
  | cons p rest ih =>
      by_cases h : p.1 = cid <;> simp_all [deleteClient, lookupClient, List.filter_cons]

theorem not_key_of_mem_deleteClient {l : List (Nat × ClientInfo)} {cid : Nat}
    {p : Nat × ClientInfo} (h : p ∈ deleteClient l cid) : p.1 ≠ cid := by
  have := (List.mem_filter.1 h).2
  simpa using this

theorem lookupClient_updateClient (l : List (Nat × ClientInfo)) (cid : Nat)
    (f : ClientInfo → ClientInfo) :
    lookupClient (updateClient l cid f) cid = (lookupClient l cid).map f := by
  induction l with
  | nil => simp [updateClient, lookupClient]
  | cons p rest ih =>
      obtain ⟨k, v⟩ := p
      by_cases h : k = cid
      · simp [updateClient, h, lookupClient]
      · simpa [updateClient, h, lookupClient] using ih

theorem mem_broadcast_iff (st : ServerState) (m : ServerMsg) (o : Output) :
    o ∈ broadcast st m ↔ ∃ p ∈ st.clients, rsOf st p.1 = 1 ∧ o = Output.send p.1 m := by
  simp only [broadcast, List.mem_filterMap]
  constructor
  · rintro ⟨p, hp, hf⟩
    by_cases h : rsOf st p.1 = 1
    · simp only [h, if_pos] at hf
      exact ⟨p, hp, h, (Option.some_inj.1 hf).symm⟩
    · simp [h] at hf
  · rintro ⟨p, hp, h, rfl⟩
    exact ⟨p, hp, by simp [h]⟩

theorem send_mem_broadcast {st : ServerState} {cid : Nat} {info : ClientInfo}
    (hmem : (cid, info) ∈ st.clients) (hrs : rsOf st cid = 1) (m : ServerMsg) :
    Output.send cid m ∈ broadcast st m :=
  (mem_broadcast_iff st m _).2 ⟨(cid, info), hmem, hrs, rfl⟩

theorem terminate_not_mem_broadcast (st : ServerState) (m : ServerMsg) (t : Nat) :
    Output.terminate t ∉ broadcast st m := by
  intro h
  rcases (mem_broadcast_iff st m _).1 h with ⟨p, -, -, heq⟩
  simp at heq

theorem msg_of_mem_broadcast {st : ServerState} {m : ServerMsg} {t : Nat} {m2 : ServerMsg}
    (h : Output.send t m2 ∈ broadcast st m) : m2 = m := by
  rcases (mem_broadcast_iff st m _).1 h with ⟨p, -, -, heq⟩
  simp at heq
  exact heq.2

theorem target_of_mem_broadcast {st : ServerState} {m : ServerMsg} {o : Output}
    (h : o ∈ broadcast st m) : ∃ p ∈ st.clients, targetOf o = p.1 := by
  rcases (mem_broadcast_iff st m _).1 h with ⟨p, hp, -, rfl⟩
  exact ⟨p, hp, rfl⟩

theorem lookupClient_hbmap :
    ∀ (l : List (Nat × ClientInfo)) (cid : Nat) (info : ClientInfo),
      lookupClient l cid = some info →
      lookupClient (l.map (fun p => if p.2.alive then (p.1, { p.2 with alive := false }) else p)) cid
        = some (if info.alive then { info with alive := false } else info)
  | [], _, _, h => by simp [lookupClient] at h
  | (k, v) :: rest, cid, info, h => by
      by_cases hk : k = cid
      · subst hk
        have hv : v = info := by simpa [lookupClient, List.find?_cons_of_pos] using h
        subst hv
        by_cases ha : v.alive <;> simp [lookupClient, List.find?_cons_of_pos, ha]
      · have hrest : lookupClient rest cid = some info := by
          simpa [lookupClient, List.find?_cons_of_neg, hk] using h
        have ih := lookupClient_hbmap rest cid info hrest
        by_cases ha : v.alive <;>
          simpa [lookupClient, List.find?_cons_of_neg, hk, ha] using ih

theorem terminate_mem_heartbeat {st : ServerState} {cid : Nat} {info : ClientInfo}
    (h : lookupClient st.clients cid = some info) (ha : info.alive = false) :
    Output.terminate cid ∈ (heartbeatTick st).2 := by
  have hmem := List.mem_of_find?_eq_some (find?_eq_of_lookupClient h)
  have hmap := List.mem_map_of_mem
    (fun p : Nat × ClientInfo => if p.2.alive then Output.ping p.1 else Output.terminate p.1) hmem
  simpa [heartbeatTick, ha] using hmap

theorem ping_mem_heartbeat {st : ServerState} {cid : Nat} {info : ClientInfo}
    (h : lookupClient st.clients cid = some info) (ha : info.alive = true) :
    Output.ping cid ∈ (heartbeatTick st).2 := by
  have hmem := List.mem_of_find?_eq_some (find?_eq_of_lookupClient h)
  have hmap := List.mem_map_of_mem
    (fun p : Nat × ClientInfo => if p.2.alive then Output.ping p.1 else Output.terminate p.1) hmem
  simpa [heartbeatTick, ha] using hmap

theorem terminate_not_mem_onMessage (st : ServerState) (cid : Nat) (data : Option ClientMsg)
    (now t : Nat) : Output.terminate t ∉ (onMessage st cid data now).2 := by
  cases data with
  | none => simp [onMessage]
  | some msg =>
      cases msg with
      | register name agentType =>
          intro h
          rcases List.mem_append.1 h with h1 | h1
          · exact terminate_not_mem_broadcast _ _ _ h1
          · exact terminate_not_mem_broadcast _ _ _ h1
      | status_update status task =>
          cases hl : lookupClient st.clients cid with
          | none => simp [onMessage, hl]
          | some info =>
              intro h
              simp only [onMessage, hl] at h
              exact terminate_not_mem_broadcast _ _ _ h
      | chat text fromField =>
          intro h
          exact terminate_not_mem_broadcast _ _ _ h
      | discovery text category fromField =>
          intro h
          exact terminate_not_mem_broadcast _ _ _ h
      | leaving =>
          cases hl : lookupClient st.clients cid with
          | none => simp [onMessage, hl]
          | some info => simp [onMessage, hl]
      | who => simp [onMessage]
      | unknownKind => simp [onMessage]

theorem terminate_not_mem_onClose (st : ServerState) (cid code now t : Nat) :
    Output.terminate t ∉ (onClose st cid code now).2 := by
  cases hl : lookupClient st.clients cid with
  | none => simp [onClose, hl]
  | some info =>
      intro h
      simp only [onClose, hl] at h
      rcases List.mem_append.1 h with h1 | h1
      · exact terminate_not_mem_broadcast _ _ _ h1
      · exact terminate_not_mem_broadcast _ _ _ h1

theorem terminate_not_mem_snapshotTick (st : ServerState) (now t : Nat) :
    Output.terminate t ∉ snapshotTick st now := by
  unfold snapshotTick
  by_cases h : st.clients.isEmpty
  · simp [h]
  · simp only [h, if_neg, Bool.false_eq_true, not_false_eq_true]
    exact terminate_not_mem_broadcast _ _ _

theorem keys_updateClient (l : List (Nat × ClientInfo)) (cid : Nat)
    (f : ClientInfo → ClientInfo) :
    (updateClient l cid f).map Prod.fst = l.map Prod.fst := by
  unfold updateClient
  rw [List.map_map]
  apply List.map_congr_left
  intro p hp
  by_cases h : p.1 = cid <;> simp [h]

/-! The claims. -/

/-- C1: handling a close event on a registered connection removes the record
(the post-state registry is the old one with the record deleted, and the
record is no longer found), and the exitReason follows exactly the claimed
precedence: close code 1000 or the record's leaving flag gives
"left normally"; else code 1001 gives "going away"; else code 1006 gives
"connection lost"; else a false liveness flag at removal time gives
"heartbeat timeout"; else "disconnected".  The system notice broadcast
afterwards — computed from the post-removal registry — carries the identity,
this exitReason and the rounded elapsed membership duration, followed by a
fresh participants snapshot. -/
theorem C1_close_exit (st : ServerState) (cid code now : Nat) (info : ClientInfo)
    (hreg : lookupClient st.clients cid = some info) :
    lookupClient (onClose st cid code now).1.clients cid = none
    ∧ (onClose st cid code now).1.clients = deleteClient st.clients cid
    ∧ ((code = 1000 ∨ info.leaving = true) → exitReasonOf code info = "left normally")
    ∧ (code ≠ 1000 → info.leaving = false → code = 1001 →
        exitReasonOf code info = "going away")
    ∧ (code ≠ 1000 → info.leaving = false → code ≠ 1001 → code = 1006 →
        exitReasonOf code info = "connection lost")
    ∧ (code ≠ 1000 → info.leaving = false → code ≠ 1001 → code ≠ 1006 →
        info.alive = false → exitReasonOf code info = "heartbeat timeout")
    ∧ (code ≠ 1000 → info.leaving = false → code ≠ 1001 → code ≠ 1006 →
        info.alive = true → exitReasonOf code info = "disconnected")
    ∧ (onClose st cid code now).2
        = broadcast (onClose st cid code now).1
            (ServerMsg.system (info.name ++ " " ++ exitReasonOf code info
              ++ " (was here " ++ toString ((now - info.joinedAt + 500) / 1000) ++ "s)") now)
          ++ broadcastParticipants (onClose st cid code now).1 now := by
  refine ⟨?_, ?_, ?_, ?_, ?_, ?_, ?_, ?_⟩
  · simp [onClose, hreg, lookupClient_deleteClient_self]
  · simp [onClose, hreg]
  · rintro (h | h) <;> simp [exitReasonOf, h]
  · intro h1 h2 h3
    simp [exitReasonOf, h1, h2, h3]
  · intro h1 h2 h3 h4
    simp [exitReasonOf, h1, h2, h3, h4]
  · intro h1 h2 h3 h4 h5
    simp [exitReasonOf, h1, h2, h3, h4, h5]
  · intro h1 h2 h3 h4 h5
    simp [exitReasonOf, h1, h2, h3, h4, h5]
  · simp [onClose, hreg]

/-- Witness for C1: a registered connection with liveness flag false and
leaving flag unset, closed with code 1005 (no-status close after a forced
termination path), is removed and classified "heartbeat timeout". -/
theorem C1_close_exit_witness :
    lookupClient (onClose ⟨[(1, 1)], [(1, ⟨"a", "agent", false, 1000, "idle", none, false⟩)]⟩
        1 1005 9000).1.clients 1 = none
    ∧ exitReasonOf 1005 ⟨"a", "agent", false, 1000, "idle", none, false⟩ = "heartbeat timeout" := by
  have h := C1_close_exit ⟨[(1, 1)], [(1, ⟨"a", "agent", false, 1000, "idle", none, false⟩)]⟩
    1 1005 9000 ⟨"a", "agent", false, 1000, "idle", none, false⟩ (by decide)
  exact ⟨h.1, h.2.2.2.2.2.1 (by decide) rfl (by decide) (by decide) rfl⟩

/-- C5: a `who` frame gets a point-to-point reply: the broker's whole output
is a single `who_response` sent to the requesting connection only (never a
broadcast), the state is unchanged, and the listed entries are exactly one
`{name, type, joinedAt}` projection per registered connection, in registry
order; unregistered placeholder connections cannot appear since the list is
drawn from the registry alone. -/
theorem C5_who_reply (st : ServerState) (cid now : Nat) :
    (onMessage st cid (some ClientMsg.who) now).1 = st
    ∧ (onMessage st cid (some ClientMsg.who) now).2
        = [Output.send cid (ServerMsg.who_response
            (st.clients.map (fun p =>
              { name := p.2.name, type := p.2.type, joinedAt := p.2.joinedAt })) now)]
    ∧ ∀ o ∈ (onMessage st cid (some ClientMsg.who) now).2, targetOf o = cid := by
  refine ⟨rfl, rfl, ?_⟩
  intro o ho
  simp only [onMessage, List.mem_singleton] at ho
  simp [ho, targetOf]

/-- Witness for C5 on a one-client registry. -/
theorem C5_who_reply_witness :
    targetOf (Output.send 1 (ServerMsg.who_response [⟨"A", "agent", 0⟩] 5)) = 1 := by
  have h := C5_who_reply ⟨[(1, 1)], [(1, ⟨"A", "agent", true, 0, "idle", none, false⟩)]⟩ 1 5
  exact h.2.2 _ (by decide)

/-- C6: a frame whose payload does not parse as the expected shape (`none`,
the catch branch), or parses to an object of an unhandled kind, is dropped:
the state — registry and connection table — is unchanged and no output of any
sort is produced, so no broadcast happens, no other connection is affected,
and the handling connection is not closed. -/
theorem C6_malformed_dropped (st : ServerState) (cid now : Nat) :
    onMessage st cid none now = (st, [])
    ∧ onMessage st cid (some ClientMsg.unknownKind) now = (st, []) :=
  ⟨rfl, rfl⟩

/-- C2 counterexample: the claim promises fan-out to every currently-connected
connection, with the only exception being a transport not in an open state.
Here connection 2 is connected and open (`readyState` 1) but has not
registered, and a chat frame from connection 1 is delivered to connection 1
alone: the fan-out iterates the registry, not the connected set, so the open
connection 2 is skipped even though the claimed exception does not apply. -/
theorem C2_counterexample :
    (2, 1) ∈ (ServerState.mk [(1, 1), (2, 1)]
        [(1, ⟨"A", "agent", true, 0, "idle", none, false⟩)]).conns
    ∧ rsOf (ServerState.mk [(1, 1), (2, 1)]
        [(1, ⟨"A", "agent", true, 0, "idle", none, false⟩)]) 2 = 1
    ∧ (onMessage (ServerState.mk [(1, 1), (2, 1)]
        [(1, ⟨"A", "agent", true, 0, "idle", none, false⟩)]) 1
        (some (ClientMsg.chat "hi" none)) 5).2
      = [Output.send 1 (ServerMsg.chat "A" "agent" "hi" 5)] := by decide

/-- C2 (amended): every `chat` or `discovery` frame is fanned out — with the
server-assigned timestamp and the sender's role attached, the same message to
everyone — to every currently *registered* connection whose transport is open
(readyState 1), including the sender when registered, and to nobody else: a
registered connection whose transport is not open at fan-out time is simply
skipped, never retried, and does not prevent delivery to the remaining
connections; chat leaves the broker state unchanged, and discovery leaves the
registered set and the connection table unchanged. -/
theorem C2_fanout_registered (st : ServerState) (cid : Nat) (text : String)
    (category fromField : Option String) (now : Nat) :
    (onMessage st cid (some (ClientMsg.chat text fromField)) now).1 = st
    ∧ (∀ k i, (k, i) ∈ st.clients → rsOf st k = 1 →
        Output.send k (ServerMsg.chat (strOr fromField (localInfo st cid).name)
            (localInfo st cid).type text now)
          ∈ (onMessage st cid (some (ClientMsg.chat text fromField)) now).2)
    ∧ (∀ o ∈ (onMessage st cid (some (ClientMsg.chat text fromField)) now).2,
        ∃ p ∈ st.clients, rsOf st p.1 = 1
          ∧ o = Output.send p.1 (ServerMsg.chat (strOr fromField (localInfo st cid).name)
              (localInfo st cid).type text now))
    ∧ (∀ dSt, dSt = (onMessage st cid (some (ClientMsg.discovery text category fromField)) now).1 →
        dSt.conns = st.conns
        ∧ dSt.clients.map Prod.fst = st.clients.map Prod.fst
        ∧ (∀ k i, (k, i) ∈ dSt.clients → rsOf dSt k = 1 →
            Output.send k (ServerMsg.discovery (strOr fromField (localInfo dSt cid).name)
                (localInfo dSt cid).type category text now)
              ∈ (onMessage st cid (some (ClientMsg.discovery text category fromField)) now).2)
        ∧ (∀ o ∈ (onMessage st cid (some (ClientMsg.discovery text category fromField)) now).2,
            ∃ p ∈ dSt.clients, rsOf dSt p.1 = 1
              ∧ o = Output.send p.1
                  (ServerMsg.discovery (strOr fromField (localInfo dSt cid).name)
                    (localInfo dSt cid).type category text now))) := by
  refine ⟨rfl, ?_, ?_, ?_⟩
  · intro k i hmem hrs
    exact send_mem_broadcast hmem hrs _
  · intro o ho
    exact (mem_broadcast_iff st _ o).1 ho
  · rintro dSt rfl
    refine ⟨?_, ?_, ?_, ?_⟩
    · by_cases hc : category = some "leaving" ∧ (lookupClient st.clients cid).isSome <;>
        simp [onMessage, hc]
    · by_cases hc : category = some "leaving" ∧ (lookupClient st.clients cid).isSome <;>
        simp [onMessage, hc, keys_updateClient]
    · intro k i hmem hrs
      exact send_mem_broadcast hmem hrs _
    · intro o ho
      exact (mem_broadcast_iff _ _ o).1 ho

/-- Witness for C2 (amended): with two registered open connections, a chat
from connection 1 is delivered to the non-sender connection 2 and nothing is
delivered outside the characterized set. -/
theorem C2_fanout_registered_witness :
    Output.send 2 (ServerMsg.chat "A" "agent" "hi" 5)
      ∈ (onMessage (ServerState.mk [(1, 1), (2, 1)]
          [(1, ⟨"A", "agent", true, 0, "idle", none, false⟩),
           (2, ⟨"B", "agent", true, 0, "idle", none, false⟩)]) 1
          (some (ClientMsg.chat "hi" none)) 5).2 :=
  (C2_fanout_registered (ServerState.mk [(1, 1), (2, 1)]
      [(1, ⟨"A", "agent", true, 0, "idle", none, false⟩),
       (2, ⟨"B", "agent", true, 0, "idle", none, false⟩)]) 1 "hi" none none 5).2.1
    2 ⟨"B", "agent", true, 0, "idle", none, false⟩ (by decide) (by decide)

/-- C4: on registration the record is stored before any broadcast is
computed, so the join notice and snapshot are drawn from the registry that
already contains the joiner — the snapshot carries the joiner's entry, and
the joiner itself receives the snapshot when its transport is open.  On close
the record is removed in the same operation before any broadcast is computed:
the posted notice and snapshot come from the registry with the record
deleted, and no output of the close handler targets the closed connection. -/
theorem C4_registry_lifecycle :
    (∀ (st : ServerState) (cid : Nat) (n : String) (a : Option String) (now : Nat),
      lookupClient (onMessage st cid (some (ClientMsg.register n a)) now).1.clients cid
          = some ⟨n, strOr a "agent", true, now, "idle", none, false⟩
      ∧ (onMessage st cid (some (ClientMsg.register n a)) now).2
          = broadcast (onMessage st cid (some (ClientMsg.register n a)) now).1
              (ServerMsg.system (n ++ " joined") now)
            ++ broadcastParticipants (onMessage st cid (some (ClientMsg.register n a)) now).1 now
      ∧ (∃ pt ∈ participantsOf (onMessage st cid (some (ClientMsg.register n a)) now).1,
          pt.name = n ∧ pt.joinedAt = now)
      ∧ (rsOf st cid = 1 →
          Output.send cid (ServerMsg.participants_update
              (participantsOf (onMessage st cid (some (ClientMsg.register n a)) now).1) now)
            ∈ (onMessage st cid (some (ClientMsg.register n a)) now).2))
    ∧ (∀ (st : ServerState) (cid code now : Nat) (info : ClientInfo),
        lookupClient st.clients cid = some info →
        (onClose st cid code now).1.clients = deleteClient st.clients cid
        ∧ lookupClient (onClose st cid code now).1.clients cid = none
        ∧ (∃ s, (onClose st cid code now).2
            = broadcast (onClose st cid code now).1 (ServerMsg.system s now)
              ++ broadcastParticipants (onClose st cid code now).1 now)
        ∧ (∀ o ∈ (onClose st cid code now).2, targetOf o ≠ cid)) := by
  constructor
  · intro st cid n a now
    refine ⟨?_, rfl, ?_, ?_⟩
    · simp [onMessage, lookupClient_setClient_self]
    · refine ⟨_, List.mem_map_of_mem _ (mem_setClient_self st.clients cid
        ⟨n, strOr a "agent", true, now, "idle", none, false⟩), rfl, rfl⟩
    · intro hrs
      have h2 : (onMessage st cid (some (ClientMsg.register n a)) now).2
          = broadcast (onMessage st cid (some (ClientMsg.register n a)) now).1
              (ServerMsg.system (n ++ " joined") now)
            ++ broadcastParticipants (onMessage st cid (some (ClientMsg.register n a)) now).1 now := rfl
      rw [h2]
      exact List.mem_append_right _
        (@send_mem_broadcast (onMessage st cid (some (ClientMsg.register n a)) now).1 cid
          ⟨n, strOr a "agent", true, now, "idle", none, false⟩
          (mem_setClient_self st.clients cid ⟨n, strOr a "agent", true, now, "idle", none, false⟩)
          hrs _)
  · intro st cid code now info hreg
    refine ⟨?_, ?_, ⟨info.name ++ " " ++ exitReasonOf code info
      ++ " (was here " ++ toString ((now - info.joinedAt + 500) / 1000) ++ "s)", ?_⟩, ?_⟩
    · simp [onClose, hreg]
    · simp [onClose, hreg, lookupClient_deleteClient_self]
    · simp [onClose, hreg]
    · intro o ho heq
      simp only [onClose, hreg] at ho
      have hdel : (ServerState.mk st.conns (deleteClient st.clients cid)).clients
          = deleteClient st.clients cid := rfl
      rcases List.mem_append.1 ho with h1 | h1
      · rcases target_of_mem_broadcast h1 with ⟨p, hp, hto⟩
        exact not_key_of_mem_deleteClient hp (by rw [← hto, heq])
      · rcases target_of_mem_broadcast h1 with ⟨p, hp, hto⟩
        exact not_key_of_mem_deleteClient hp (by rw [← hto, heq])

/-- Witness for C4: after a join on an open connection the joiner receives
the snapshot containing itself; after the close of a registered connection no
output targets it. -/
theorem C4_registry_lifecycle_witness :
    (Output.send 1 (ServerMsg.participants_update
        [⟨"A", "agent", "idle", none, 7⟩] 7)
      ∈ (onMessage (ServerState.mk [(1, 1)] []) 1
          (some (ClientMsg.register "A" (some "agent"))) 7).2)
    ∧ ∀ o ∈ (onClose (ServerState.mk [(1, 1)]
        [(1, ⟨"A", "agent", true, 0, "idle", none, false⟩)]) 1 1000 9).2,
        targetOf o ≠ 1 := by
  constructor
  · exact C4_registry_lifecycle.1 (ServerState.mk [(1, 1)] []) 1 "A" (some "agent") 7
      |>.2.2.2 (by decide)
  · exact (C4_registry_lifecycle.2 (ServerState.mk [(1, 1)]
      [(1, ⟨"A", "agent", true, 0, "idle", none, false⟩)]) 1 1000 9
      ⟨"A", "agent", true, 0, "idle", none, false⟩ (by decide)).2.2.2

/-- C8: a `discovery` frame with category "leaving" from a registered
connection sets exactly the leaving flag on the sender's record — every other
field is untouched — and is still broadcast (the relayed discovery message,
to the registry fan-out); a `leaving` frame sets the leaving flag only and
produces no output at all. -/
theorem C8_leaving_flag (st : ServerState) (cid : Nat) (info : ClientInfo) (text : String)
    (fromField : Option String) (now : Nat)
    (hreg : lookupClient st.clients cid = some info) :
    lookupClient (onMessage st cid
        (some (ClientMsg.discovery text (some "leaving") fromField)) now).1.clients cid
      = some { info with leaving := true }
    ∧ (onMessage st cid (some (ClientMsg.discovery text (some "leaving") fromField)) now).2
      = broadcast (onMessage st cid
            (some (ClientMsg.discovery text (some "leaving") fromField)) now).1
          (ServerMsg.discovery (strOr fromField info.name) info.type (some "leaving") text now)
    ∧ lookupClient (onMessage st cid (some ClientMsg.leaving) now).1.clients cid
      = some { info with leaving := true }
    ∧ (onMessage st cid (some ClientMsg.leaving) now).2 = [] := by
  have hsome : (lookupClient st.clients cid).isSome := by simp [hreg]
  refine ⟨?_, ?_, ?_, ?_⟩
  · simp [onMessage, hsome, lookupClient_updateClient, hreg]
  · simp [onMessage, hsome, localInfo, lookupClient_updateClient, hreg]
  · simp [onMessage, hreg, lookupClient_updateClient]
  · simp [onMessage, hreg]

/-- Witness for C8 at a concrete registered connection. -/
theorem C8_leaving_flag_witness :
    lookupClient (onMessage (ServerState.mk [(1, 1)]
        [(1, ⟨"A", "agent", true, 3, "busy", some "t", false⟩)]) 1
        (some ClientMsg.leaving) 9).1.clients 1
      = some ⟨"A", "agent", true, 3, "busy", some "t", true⟩ :=
  (C8_leaving_flag (ServerState.mk [(1, 1)]
      [(1, ⟨"A", "agent", true, 3, "busy", some "t", false⟩)]) 1
      ⟨"A", "agent", true, 3, "busy", some "t", false⟩ "x" none 9 (by decide)).2.2.1

/-- C3: on each heartbeat tick every registered record with a false liveness
flag is forcibly terminated, while every live record is pinged and its flag
immediately flipped to false; a pong flips the flag back to true; and no
handler other than the tick ever emits a termination, so the tick is the only
place the broker initiates a close.  Consequently a registered connection
that receives no pong between two consecutive ticks is terminated by the
second tick at the latest — within two heartbeat intervals of its last pong —
after which the close path broadcasts the departure notice. -/
theorem C3_heartbeat_eviction (st : ServerState) (cid : Nat) (info : ClientInfo)
    (hreg : lookupClient st.clients cid = some info) :
    (info.alive = false → Output.terminate cid ∈ (heartbeatTick st).2)
    ∧ (info.alive = true →
        Output.ping cid ∈ (heartbeatTick st).2
        ∧ lookupClient (heartbeatTick st).1.clients cid = some { info with alive := false })
    ∧ (∀ (st2 : ServerState) (info2 : ClientInfo),
        lookupClient st2.clients cid = some info2 →
        lookupClient (onPong st2 cid).clients cid = some { info2 with alive := true })
    ∧ (Output.terminate cid ∈ (heartbeatTick st).2
        ∨ Output.terminate cid ∈ (heartbeatTick (heartbeatTick st).1).2)
    ∧ (∀ (st2 : ServerState) (cid2 : Nat) (data : Option ClientMsg) (now2 t : Nat),
        Output.terminate t ∉ (onMessage st2 cid2 data now2).2)
    ∧ (∀ (st2 : ServerState) (cid2 code now2 t : Nat),
        Output.terminate t ∉ (onClose st2 cid2 code now2).2)
    ∧ (∀ (st2 : ServerState) (now2 t : Nat), Output.terminate t ∉ snapshotTick st2 now2) := by
  refine ⟨?_, ?_, ?_, ?_, terminate_not_mem_onMessage, terminate_not_mem_onClose,
    terminate_not_mem_snapshotTick⟩
  · intro ha
    exact terminate_mem_heartbeat hreg ha
  · intro ha
    refine ⟨ping_mem_heartbeat hreg ha, ?_⟩
    have h := lookupClient_hbmap st.clients cid info hreg
    simpa [heartbeatTick, ha] using h
  · intro st2 info2 h2
    simp [onPong, lookupClient_updateClient, h2]
  · by_cases ha : info.alive
    · right
      have h1 : lookupClient (heartbeatTick st).1.clients cid
          = some { info with alive := false } := by
        have h := lookupClient_hbmap st.clients cid info hreg
        simpa [heartbeatTick, ha] using h
      exact terminate_mem_heartbeat h1 rfl
    · left
      exact terminate_mem_heartbeat hreg (by simpa using ha)

/-- Witness for C3: a registered connection whose liveness flag is already
false is terminated on the very next tick. -/
theorem C3_heartbeat_eviction_witness :
    Output.terminate 1 ∈ (heartbeatTick (ServerState.mk [(1, 1)]
      [(1, ⟨"A", "agent", false, 0, "idle", none, false⟩)])).2 :=
  (C3_heartbeat_eviction (ServerState.mk [(1, 1)]
      [(1, ⟨"A", "agent", false, 0, "idle", none, false⟩)]) 1
      ⟨"A", "agent", false, 0, "idle", none, false⟩ (by decide)).1 rfl

theorem ts_eq_now_of_send_mem (st : ServerState) (e : Event) (now : Nat) :
    ∀ t m, Output.send t m ∈ (step st e now).2 → tsOf m = now := by
  intro t m hm
  cases e with
  | message cid data =>
      cases data with
      | none => simp [step, onMessage] at hm
      | some msg =>
          cases msg with
          | register name agentType =>
              simp only [step, onMessage, broadcastParticipants] at hm
              rcases List.mem_append.1 hm with h1 | h1
              · rw [msg_of_mem_broadcast h1]
                rfl
              · rw [msg_of_mem_broadcast h1]
                rfl
          | status_update status task =>
              cases hl : lookupClient st.clients cid with
              | none => simp [step, onMessage, hl] at hm
              | some i =>
                  simp only [step, onMessage, hl, broadcastParticipants] at hm
                  rw [msg_of_mem_broadcast hm]
                  rfl
          | chat text fromField =>
              simp only [step, onMessage] at hm
              rw [msg_of_mem_broadcast hm]
              rfl
          | discovery text category fromField =>
              simp only [step, onMessage] at hm
              rw [msg_of_mem_broadcast hm]
              rfl
          | leaving =>
              cases hl : lookupClient st.clients cid with
              | none => simp [step, onMessage, hl] at hm
              | some i => simp [step, onMessage, hl] at hm
          | who =>
              simp only [step, onMessage, List.mem_singleton, Output.send.injEq] at hm
              rw [hm.2]
              rfl
          | unknownKind => simp [step, onMessage] at hm
  | close cid code =>
      cases hl : lookupClient st.clients cid with
      | none => simp [step, onClose, hl] at hm
      | some i =>
          simp only [step, onClose, hl, broadcastParticipants] at hm
          rcases List.mem_append.1 hm with h1 | h1
          · rw [msg_of_mem_broadcast h1]
            rfl
          · rw [msg_of_mem_broadcast h1]
            rfl
  | pong cid => simp [step] at hm
  | heartbeat =>
      simp only [step, heartbeatTick] at hm
      rcases List.mem_map.1 hm with ⟨p, -, hp⟩
      by_cases h : p.2.alive <;> simp [h] at hp
  | snapshot =>
      by_cases h : st.clients.isEmpty
      · simp [step, snapshotTick, h] at hm
      · simp only [step, snapshotTick, h, if_neg, Bool.false_eq_true,
          not_false_eq_true, broadcastParticipants] at hm
        rw [msg_of_mem_broadcast hm]
        rfl

/-- C7: every message the broker emits while handling an event carries that
event's server-assigned receipt time as its timestamp — never a
sender-supplied value, whatever fields the frame carried — so for any two
messages emitted by two events accepted in receipt order with non-decreasing
receipt times, the second timestamp is greater than or equal to the first. -/
theorem C7_timestamp_monotone (st : ServerState) (e : Event) (now : Nat) :
    (∀ (t : Nat) (m : ServerMsg), Output.send t m ∈ (step st e now).2 → tsOf m = now)
    ∧ (∀ (e2 : Event) (now2 : Nat) (t : Nat) (m : ServerMsg) (t2 : Nat) (m2 : ServerMsg),
        now ≤ now2 →
        Output.send t m ∈ (step st e now).2 →
        Output.send t2 m2 ∈ (step (step st e now).1 e2 now2).2 →
        tsOf m ≤ tsOf m2) := by
  refine ⟨ts_eq_now_of_send_mem st e now, ?_⟩
  intro e2 now2 t m t2 m2 hle h1 h2
  rw [ts_eq_now_of_send_mem st e now t m h1,
      ts_eq_now_of_send_mem (step st e now).1 e2 now2 t2 m2 h2]
  exact hle

/-- Witness for C7: two chat frames received at times 5 and then 7 are
relayed with timestamps in that order. -/
theorem C7_timestamp_monotone_witness :
    tsOf (ServerMsg.chat "A" "agent" "x" 5) ≤ tsOf (ServerMsg.chat "A" "agent" "y" 7) :=
  (C7_timestamp_monotone (ServerState.mk [(1, 1)]
      [(1, ⟨"A", "agent", true, 0, "idle", none, false⟩)])
      (Event.message 1 (some (ClientMsg.chat "x" none))) 5).2
    (Event.message 1 (some (ClientMsg.chat "y" none))) 7
    1 (ServerMsg.chat "A" "agent" "x" 5) 1 (ServerMsg.chat "A" "agent" "y" 7)
    (by decide) (by decide) (by decide)

/-- C9: in every participants snapshot the broker assembles and broadcasts,
a record whose role is "user" is reported with status "observer" regardless
of the status stored in the record; any other role is reported with its
stored status, falling back to "idle" when that status is unset (falsy), and
the task falls back to null when unset (falsy); every output of the snapshot
broadcast carries exactly this derived list. -/
theorem C9_snapshot_status (st : ServerState) (now : Nat) :
    (∀ o ∈ broadcastParticipants st now,
        o = Output.send (targetOf o) (ServerMsg.participants_update (participantsOf st) now))
    ∧ (∀ (cid : Nat) (info : ClientInfo), (cid, info) ∈ st.clients →
        ∃ pt ∈ participantsOf st,
          pt.name = info.name ∧ pt.type = info.type ∧ pt.joinedAt = info.joinedAt
          ∧ (info.type = "user" → pt.status = "observer")
          ∧ (info.type ≠ "user" → info.status ≠ "" → pt.status = info.status)
          ∧ (info.type ≠ "user" → info.status = "" → pt.status = "idle")
          ∧ (info.task = none → pt.task = none)
          ∧ (info.task = some "" → pt.task = none)
          ∧ (∀ s, info.task = some s → s ≠ "" → pt.task = some s)) := by
  constructor
  · intro o ho
    rcases (mem_broadcast_iff st _ o).1 ho with ⟨p, -, -, rfl⟩
    rfl
  · intro cid info hmem
    refine ⟨_, List.mem_map_of_mem _ hmem, rfl, rfl, rfl, ?_, ?_, ?_, ?_, ?_, ?_⟩
    · intro h
      simp [h]
    · intro h1 h2
      simp [h1, h2]
    · intro h1 h2
      simp [h1, h2]
    · intro h
      simp [strOrNull, h]
    · intro h
      simp [strOrNull, h]
    · intro s h hs
      simp [strOrNull, h, hs]

/-- Witness for C9: a record with role "user" and stored status "working" is
reported as "observer". -/
theorem C9_snapshot_status_witness :
    ∃ pt ∈ participantsOf (ServerState.mk [(1, 1)]
        [(1, ⟨"u", "user", true, 0, "working", none, false⟩)]),
      pt.name = "u" ∧ pt.status = "observer" := by
  obtain ⟨pt, hmem, hname, -, -, huser, -⟩ :=
    (C9_snapshot_status (ServerState.mk [(1, 1)]
        [(1, ⟨"u", "user", true, 0, "working", none, false⟩)]) 0).2 1
      ⟨"u", "user", true, 0, "working", none, false⟩ (by decide)
  exact ⟨pt, hmem, hname, huser rfl⟩

/-- C10: a second `register` on an already-registered connection replaces the
entire record — name and role from the new frame, liveness flag true, status
"idle", task null, leaving flag cleared, joinedAt reset to the
re-registration time — a fresh "joined" notice and a snapshot drawn from the
updated registry are broadcast, and a later close reports the membership
duration measured from the most recent registration time. -/
theorem C10_reregister (st : ServerState) (cid : Nat) (oldInfo : ClientInfo)
    (n : String) (a : Option String) (now2 code now3 : Nat)
    (hreg : lookupClient st.clients cid = some oldInfo) :
    lookupClient (onMessage st cid (some (ClientMsg.register n a)) now2).1.clients cid
      = some ⟨n, strOr a "agent", true, now2, "idle", none, false⟩
    ∧ (onMessage st cid (some (ClientMsg.register n a)) now2).2
      = broadcast (onMessage st cid (some (ClientMsg.register n a)) now2).1
          (ServerMsg.system (n ++ " joined") now2)
        ++ broadcastParticipants (onMessage st cid (some (ClientMsg.register n a)) now2).1 now2
    ∧ (onClose (onMessage st cid (some (ClientMsg.register n a)) now2).1 cid code now3).2
      = broadcast (onClose (onMessage st cid (some (ClientMsg.register n a)) now2).1 cid code now3).1
          (ServerMsg.system (n ++ " "
              ++ exitReasonOf code ⟨n, strOr a "agent", true, now2, "idle", none, false⟩
              ++ " (was here " ++ toString ((now3 - now2 + 500) / 1000) ++ "s)") now3)
        ++ broadcastParticipants
            (onClose (onMessage st cid (some (ClientMsg.register n a)) now2).1 cid code now3).1 now3 := by
  have h1 : lookupClient (onMessage st cid (some (ClientMsg.register n a)) now2).1.clients cid
      = some ⟨n, strOr a "agent", true, now2, "idle", none, false⟩ := by
    simp [onMessage, lookupClient_setClient_self]
  refine ⟨h1, rfl, ?_⟩
  simp [onClose, h1]

/-- Witness for C10: re-registering connection 1, whose old record had role
"user", status "busy", a task and the leaving flag set, yields the fully
reset fresh record. -/
theorem C10_reregister_witness :
    lookupClient (onMessage (ServerState.mk [(1, 1)]
        [(1, ⟨"old", "user", false, 2, "busy", some "t", true⟩)]) 1
        (some (ClientMsg.register "new" none)) 10).1.clients 1
      = some ⟨"new", "agent", true, 10, "idle", none, false⟩ :=
  (C10_reregister (ServerState.mk [(1, 1)]
      [(1, ⟨"old", "user", false, 2, "busy", some "t", true⟩)]) 1
      ⟨"old", "user", false, 2, "busy", some "t", true⟩ "new" none 10 1000 20 (by decide)).1

end Chatroom
